import Mathlib

/-!
Shallow embedding of the stage-control core of `labthings_sangaboard`
(`src/labthings_sangaboard/__init__.py` and `src/labthings_sangaboard/skrPico.py`):
the coordinate-frame translation `BaseStage._apply_axis_direction`, the observable
`BaseStage` state (`_hardware_position`, the `axis_inverted` setting, the `moving`
property), the construction-time override check of `BaseStage.__init__`, and the
SKR Pico driver's `move_gcode` / `update_position` dispatch loop.

Python dicts are embedded as insertion-ordered association lists, machine calls to
the Moonraker HTTP endpoints as an explicit outcome record, and raised exceptions
as `Except` values.
-/

abbrev Axis := String

/-- Embeds a Python `dict[str, int]` as an insertion-ordered association list. -/
abbrev PosMap := List (Axis × Int)

/-- Embeds a Python `dict[str, bool]` as an insertion-ordered association list. -/
abbrev InvMap := List (Axis × Bool)

/-- Embeds the exceptions raised by the stage code: the `KeyError` whose message
lists `position.keys()` (raised by `_apply_axis_direction` on a mapping input),
the `KeyError` carrying a single axis name (raised by `invert_axis_direction` and
by dict subscripts in `get_xyz_position`), and a transport failure raised by an
`httpx` request. -/
inductive PyErr where
  | keyErrorAll (keys : List Axis)
  | keyErrorAxis (axis : Axis)
  | httpError
deriving DecidableEq

/-- Embeds the statement `d[k] = v` on a Python dict that already contains `k`:
the first binding of `k` is replaced, with insertion order preserved. -/
def setKey {α β : Type} [BEq α] : List (α × β) → α → β → List (α × β)
  | [], _, _ => []
  | (k0, v0) :: t, k, v =>
    if k0 == k then (k0, v) :: t else (k0, v0) :: setKey t k v

/-- Embeds the list/tuple branch of `BaseStage._apply_axis_direction` without its
strict-length guard: each positional value is paired with the corresponding
`axis_inverted` entry, in order, and negated when that entry is `true`. -/
def seqCore (axis_inverted : InvMap) (position : List Int) : List Int :=
  (position.zip axis_inverted).map (fun pi => if pi.2.2 then -pi.1 else pi.1)

/-- Embeds the list/tuple branch of `BaseStage._apply_axis_direction`:
`zip(position, self.axis_inverted.values(), strict=True)` raises `ValueError`
when the lengths differ (modelled as `none`); otherwise each value is negated
when its axis is inverted. -/
def apply_axis_direction_seq (axis_inverted : InvMap) (position : List Int) :
    Option (List Int) :=
  if position.length = axis_inverted.length then
    some (seqCore axis_inverted position)
  else none

/-- Embeds the dict comprehension inside the `Mapping` branch of
`BaseStage._apply_axis_direction`: entries are processed in insertion order and
the first axis missing from `axis_inverted` raises `KeyError` with that axis. -/
def map_branch (axis_inverted : InvMap) : PosMap → Except Axis PosMap
  | [] => .ok []
  | (ax, v) :: rest =>
    match axis_inverted.lookup ax with
    | none => .error ax
    | some inverted =>
      match map_branch axis_inverted rest with
      | .error e => .error e
      | .ok r => .ok ((ax, if inverted then -v else v) :: r)

/-- Embeds the `Mapping` branch of `BaseStage._apply_axis_direction`: the dict
comprehension above wrapped in the `except KeyError` handler, which re-raises a
`KeyError` whose message lists `position.keys()` — all keys of the input. -/
def apply_axis_direction_map (axis_inverted : InvMap) (position : PosMap) :
    Except PyErr PosMap :=
  match map_branch axis_inverted position with
  | .ok r => .ok r
  | .error _ => .error (.keyErrorAll (position.map Prod.fst))

/-- Pointwise description of a successful mapping translation: every entry keeps
its key and is negated exactly when its `axis_inverted` flag is `true`. -/
def mapCore (axis_inverted : InvMap) (m : PosMap) : PosMap :=
  m.map (fun p => (p.1, if (axis_inverted.lookup p.1).getD false then -p.2 else p.2))

/-- Embeds the observable state of a `BaseStage` instance running the SKR Pico
driver: `_axis_names`, `_hardware_position`, the `axis_inverted` setting and the
`moving` property. -/
structure Stage where
  axis_names : List Axis
  hardware_position : PosMap
  axis_inverted : InvMap
  moving : Bool
deriving DecidableEq

/-- Embeds the `BaseStage.position` property:
`self._apply_axis_direction(self._hardware_position)`, recomputed on every read
from the current hardware position and the current inversion setting. -/
def Stage.position (s : Stage) : Except PyErr PosMap :=
  apply_axis_direction_map s.axis_inverted s.hardware_position

/-- Embeds `BaseStage.invert_axis_direction` at the value level: reads the
`axis_inverted` setting, executes `direction[axis] = not direction[axis]`
(raising `KeyError` when the axis is unknown) and writes the mapping back to the
setting. Object identity is not visible at this level; see
`invert_axis_direction_heap` for the object-level view of the same lines. -/
def invert_axis_direction (s : Stage) (axis : Axis) : Except PyErr Stage :=
  let direction := s.axis_inverted
  match direction.lookup axis with
  | none => .error (.keyErrorAxis axis)
  | some b => .ok { s with axis_inverted := setKey direction axis (!b) }

/-- States that every axis appearing in `_hardware_position` is a key of the
`axis_inverted` setting, the key invariant the stage code maintains (both are
initialised from the same axis tuple and no operation adds keys). -/
def keysInv (s : Stage) : Prop :=
  ∀ p ∈ s.hardware_position, (s.axis_inverted.lookup p.1).isSome = true

/-- Models one round of interaction with the Moonraker HTTP endpoints during a
move: whether the `POST /printer/gcode/script` request succeeds, whether the
`POST /printer/objects/query` request issued by `update_position` succeeds, and
the toolhead position the device reports to that query. -/
structure DeviceOutcome where
  gcode_ok : Bool
  query_ok : Bool
  reported : List Int
deriving DecidableEq

/-- Embeds `SkrPicoThing.update_position`: queries the device and overwrites
`_hardware_position` with `dict(zip(self.axis_names, reported))`; a transport
failure raises before the assignment, leaving the position unchanged. -/
def update_position (s : Stage) (out : DeviceOutcome) : Except PyErr Stage :=
  if out.query_ok then
    .ok { s with hardware_position := s.axis_names.zip out.reported }
  else .error .httpError

/-- Embeds `SkrPicoThing.MovementType` (`G90` absolute, `G91` relative). -/
inductive MovementType where
  | absolute
  | relative
deriving DecidableEq

/-- Observable outcome of one `SkrPicoThing.move_gcode` call: the mode written in
the G-code preamble, the displacement dict serialized into the `G1` line, the
value of the `moving` property at the moment the script is posted, whether the
call raises to its caller, and the stage state when the call returns. -/
structure MoveResult where
  mode : MovementType
  dispatched : PosMap
  moving_at_dispatch : Bool
  raised : Bool
  final : Stage
deriving DecidableEq

/-- Embeds `SkrPicoThing.move_gcode`: builds
`displacement = dict(zip(self.axis_names, [kwargs.get(axis, 0) for axis in self.axis_names]))`,
sets `self.moving = True`, posts the G-code script, and in the `finally` block
sets `self.moving = False` and then calls `self.update_position()`. The call
raises to its caller when either HTTP request fails, and the `finally` block runs
on every path. -/
def move_gcode (s : Stage) (move_type : MovementType) (kwargs : PosMap)
    (out : DeviceOutcome) : MoveResult :=
  let displacement : PosMap :=
    s.axis_names.map (fun axis => (axis, (kwargs.lookup axis).getD 0))
  let s1 : Stage := { s with moving := true }
  let s2 : Stage := { s1 with moving := false }
  let final : Stage :=
    match update_position s2 out with
    | .ok s3 => s3
    | .error _ => s2
  { mode := move_type
    dispatched := displacement
    moving_at_dispatch := s1.moving
    raised := !out.gcode_ok || !out.query_ok
    final := final }

/-- Embeds `BaseStage.move_relative` running on a `SkrPicoThing`: translates the
keyword arguments into the hardware frame with `_apply_axis_direction` and
delegates to `_hardware_move_relative`, which forwards to `move_gcode` in `G91`
relative mode. -/
def move_relative (s : Stage) (kwargs : PosMap) (out : DeviceOutcome) :
    Except PyErr MoveResult :=
  match apply_axis_direction_map s.axis_inverted kwargs with
  | .error e => .error e
  | .ok hw_kwargs => .ok (move_gcode s .relative hw_kwargs out)

/-- Embeds `BaseStage.move_absolute` running on a `SkrPicoThing`: translates the
keyword arguments into the hardware frame and forwards to `move_gcode` in `G90`
absolute mode. -/
def move_absolute (s : Stage) (kwargs : PosMap) (out : DeviceOutcome) :
    Except PyErr MoveResult :=
  match apply_axis_direction_map s.axis_inverted kwargs with
  | .error e => .error e
  | .ok hw_kwargs => .ok (move_gcode s .absolute hw_kwargs out)

/-- Embeds `BaseStage.get_xyz_position`: reads `self.position` and subscripts the
result at `"x"`, `"y"`, `"z"` in that order; a missing axis raises `KeyError`
with that axis name. -/
def get_xyz_position (s : Stage) : Except PyErr (Int × Int × Int) :=
  match s.position with
  | .error e => .error e
  | .ok pd =>
    match pd.lookup "x" with
    | none => .error (.keyErrorAxis "x")
    | some px =>
      match pd.lookup "y" with
      | none => .error (.keyErrorAxis "y")
      | some py =>
        match pd.lookup "z" with
        | none => .error (.keyErrorAxis "z")
        | some pz => .ok (px, py, pz)

/-- Describes which methods a concrete subclass of `BaseStage` overrides, as
observed by the identity checks
`self.__class__.move_relative.func is not BaseStage.move_relative.func` (and
likewise for `move_absolute`) in `BaseStage.__init__`. The hardware extension
points are recorded too, so that theorems can show the check ignores them. -/
structure StageClass where
  overrides_move_relative : Bool
  overrides_move_absolute : Bool
  overrides_hardware_move_relative : Bool
  overrides_hardware_move_absolute : Bool
deriving DecidableEq

/-- Outcome of `BaseStage.__init__`: the stage state it built and whether its
final override check raised `RedefinedBaseMovementError`. The state is recorded
even when the check raises, because the raise is the last statement of the
constructor — every other construction effect has already happened. -/
structure InitResult where
  st : Stage
  raised_redefined : Bool
deriving DecidableEq

/-- Embeds `BaseStage.__init__`: after `super().__init__`, it sets
`self._hardware_position = dict.fromkeys(self._axis_names, 0)`, and then — as its
last statement — raises `RedefinedBaseMovementError` iff the concrete class
overrides `move_relative` or `move_absolute`. `axis_inverted0` is the default of
the `axis_inverted` setting declared by the concrete class. -/
def base_init (cls : StageClass) (axis_names : List Axis)
    (axis_inverted0 : InvMap) : InitResult :=
  let st : Stage :=
    { axis_names := axis_names
      hardware_position := axis_names.map (fun a => (a, (0 : Int)))
      axis_inverted := axis_inverted0
      moving := false }
  { st := st
    raised_redefined := cls.overrides_move_relative || cls.overrides_move_absolute }

/-- Object-level state of the `axis_inverted` setting: a store of dict objects
identified by allocation ids, the id the setting currently refers to, and the
next fresh id. This makes Python object identity visible, which the value-level
model cannot express. -/
structure HeapStage where
  heap : List (Nat × InvMap)
  axis_inverted_ref : Nat
  next_id : Nat
deriving DecidableEq

/-- Embeds `BaseStage.invert_axis_direction` at the object level, following
Python reference semantics line by line: `direction = self.axis_inverted` binds
the very dict object the setting stores (no copy);
`direction[axis] = not direction[axis]` mutates that object in place (raising
`KeyError` first when the axis is unknown); `self.axis_inverted = direction`
re-points the setting at the same object. No new dict is ever allocated, so
`next_id` never changes. -/
def invert_axis_direction_heap (s : HeapStage) (axis : Axis) :
    Except PyErr HeapStage :=
  let direction := s.axis_inverted_ref
  match s.heap.lookup direction with
  | none => .error (.keyErrorAxis axis)
  | some d =>
    match d.lookup axis with
    | none => .error (.keyErrorAxis axis)
    | some b =>
      .ok { heap := setKey s.heap direction (setKey d axis (!b))
            axis_inverted_ref := direction
            next_id := s.next_id }

/-! ### Helper lemmas about the translation core -/

/-- Helper: a value-preserving length fact for the sequence translation core. -/
theorem seqCore_length (axis_inverted : InvMap) (position : List Int)
    (h : position.length = axis_inverted.length) :
    (seqCore axis_inverted position).length = position.length := by
  simp [seqCore, List.length_zip, h]

/-- Helper: negating each flagged entry twice restores the original sequence. -/
theorem seqCore_invol (axis_inverted : InvMap) (position : List Int)
    (h : position.length = axis_inverted.length) :
    seqCore axis_inverted (seqCore axis_inverted position) = position := by
  induction axis_inverted generalizing position with
  | nil =>
    cases position with
    | nil => rfl
    | cons p ps => simp at h
  | cons i t ih =>
    cases position with
    | nil => simp at h
    | cons p ps =>
      simp only [List.length_cons, Nat.succ_inj] at h
      cases hb : i.2 <;>
        simp [seqCore, List.zip, hb, ih ps h, neg_neg] <;>
        simpa [seqCore] using ih ps h

/-- Helper: when every key of the input is a recognized axis, the dict
comprehension succeeds and produces the pointwise translation `mapCore`. -/
theorem map_branch_ok (axis_inverted : InvMap) (m : PosMap)
    (h : ∀ p ∈ m, (axis_inverted.lookup p.1).isSome = true) :
    map_branch axis_inverted m = .ok (mapCore axis_inverted m) := by
  induction m with
  | nil => rfl
  | cons p t ih =>
    have hp : (axis_inverted.lookup p.1).isSome = true := h p (by simp)
    obtain ⟨b, hb⟩ := Option.isSome_iff_exists.mp hp
    have ht : ∀ q ∈ t, (axis_inverted.lookup q.1).isSome = true := by
      intro q hq
      exact h q (by simp [hq])
    simp [map_branch, hb, ih ht, mapCore]

/-- Helper: when some key of the input is not a recognized axis, the dict
comprehension raises a `KeyError`. -/
theorem map_branch_fails (axis_inverted : InvMap) (m : PosMap)
    (h : ∃ p ∈ m, axis_inverted.lookup p.1 = none) :
    ∃ e, map_branch axis_inverted m = .error e := by
  induction m with
  | nil => simp at h
  | cons p t ih =>
    cases hl : axis_inverted.lookup p.1 with
    | none => exact ⟨p.1, by simp [map_branch, hl]⟩
    | some b =>
      obtain ⟨q, hq, hqn⟩ := h
      rcases List.mem_cons.mp hq with hq | hq
      · rw [hq] at hqn
        simp [hqn] at hl
      · obtain ⟨e, he⟩ := ih ⟨q, hq, hqn⟩
        exact ⟨e, by simp [map_branch, hl, he]⟩

/-- Helper: the pointwise translation keeps every key in place. -/
theorem mapCore_keys (axis_inverted : InvMap) (m : PosMap) :
    (mapCore axis_inverted m).map Prod.fst = m.map Prod.fst := by
  induction m with
  | nil => rfl
  | cons p t ih => simp [mapCore]

/-- Helper: applying the pointwise translation twice restores the original
mapping, since negation is involutive and the flags do not change. -/
theorem mapCore_invol (axis_inverted : InvMap) (m : PosMap) :
    mapCore axis_inverted (mapCore axis_inverted m) = m := by
  induction m with
  | nil => rfl
  | cons p t ih =>
    cases hb : (axis_inverted.lookup p.1).getD false <;>
      simp [mapCore, hb, neg_neg] <;>
      simpa [mapCore] using ih

/-- Helper: looking up a key in the pointwise translation returns the original
value, negated when the key's inversion flag is set. -/
theorem lookup_mapCore (axis_inverted : InvMap) (m : PosMap) (a : Axis) :
    (mapCore axis_inverted m).lookup a =
      (m.lookup a).map
        (fun v => if (axis_inverted.lookup a).getD false then -v else v) := by
  induction m with
  | nil => rfl
  | cons p t ih =>
    by_cases hk : a = p.1
    · subst hk
      simp [mapCore, List.lookup]
    · have hne : (a == p.1) = false := beq_eq_false_iff_ne.mpr hk
      simp [mapCore, List.lookup, hne]
      simpa [mapCore] using ih

/-- Helper: replacing one value in an association list does not change which
keys are present. -/
theorem lookup_setKey_isSome {α β : Type} [BEq α] [LawfulBEq α]
    (d : List (α × β)) (k a : α) (v : β) :
    ((setKey d k v).lookup a).isSome = (d.lookup a).isSome := by
  induction d with
  | nil => rfl
  | cons p t ih =>
    by_cases hk : p.1 = k
    · have hk2 : (p.1 == k) = true := beq_iff_eq.mpr hk
      cases ha : a == p.1 <;> simp [setKey, List.lookup, hk2, ha]
    · have hk2 : (p.1 == k) = false := beq_eq_false_iff_ne.mpr hk
      cases ha : a == p.1 <;> simp [setKey, List.lookup, hk2, ha, ih]

/-- Helper: membership among the keys of an association list is exactly
success of `lookup`. -/
theorem mem_keys_lookup {α β : Type} [BEq α] [LawfulBEq α]
    (l : List (α × β)) (a : α) :
    a ∈ l.map Prod.fst ↔ (l.lookup a).isSome = true := by
  induction l with
  | nil => simp [List.lookup]
  | cons p t ih =>
    by_cases hk : a = p.1
    · subst hk
      simp [List.lookup]
    · have hne : (a == p.1) = false := beq_eq_false_iff_ne.mpr hk
      simp [List.lookup, hne, hk, ih]

/-- Helper: a key that is absent from the key list of an association list has no
`lookup` result. -/
theorem lookup_eq_none_of_not_mem_keys {α β : Type} [BEq α] [LawfulBEq α]
    (l : List (α × β)) (a : α) (h : a ∉ l.map Prod.fst) : l.lookup a = none := by
  cases hl : l.lookup a with
  | none => rfl
  | some v => exact absurd ((mem_keys_lookup l a).mpr (by simp [hl])) h

/-- Helper: a key that occurs in the key list of an association list has a
`lookup` value. -/
theorem exists_lookup_of_mem_keys {α β : Type} [BEq α] [LawfulBEq α]
    (l : List (α × β)) (a : α) (h : a ∈ l.map Prod.fst) :
    ∃ v, l.lookup a = some v :=
  Option.isSome_iff_exists.mp ((mem_keys_lookup l a).mp h)

/-! ### Claim theorems -/

/-- C1: for every axis-inversion mapping and every per-axis integer position,
applying `_apply_axis_direction` twice returns the original values — the frame
translation is an involution, both on the ordered-sequence representation (for
inputs of matching length, the only ones the strict zip accepts) and on the
axis-to-value mapping representation (for inputs whose keys are recognized
axes, the only ones that do not raise). -/
theorem apply_axis_direction_involutive (axis_inverted : InvMap) :
    (∀ position : List Int, position.length = axis_inverted.length →
      (apply_axis_direction_seq axis_inverted position).bind
        (apply_axis_direction_seq axis_inverted) = some position) ∧
    (∀ position : PosMap,
      (∀ p ∈ position, (axis_inverted.lookup p.1).isSome = true) →
      ∃ once, apply_axis_direction_map axis_inverted position = .ok once ∧
        apply_axis_direction_map axis_inverted once = .ok position) := by
  constructor
  · intro position h
    have h1 : apply_axis_direction_seq axis_inverted position =
        some (seqCore axis_inverted position) := by
      simp [apply_axis_direction_seq, h]
    have h2 : apply_axis_direction_seq axis_inverted
        (seqCore axis_inverted position) =
          some (seqCore axis_inverted (seqCore axis_inverted position)) := by
      simp [apply_axis_direction_seq, seqCore_length _ _ h, h]
    simp [h1, h2, seqCore_invol _ _ h]
  · intro position h
    have h1 := map_branch_ok axis_inverted position h
    have hkeys : ∀ p ∈ mapCore axis_inverted position,
        (axis_inverted.lookup p.1).isSome = true := by
      intro p hp
      obtain ⟨q, hq, hpq⟩ := List.mem_map.mp hp
      rw [← hpq]
      simpa using h q hq
    have h2 := map_branch_ok axis_inverted (mapCore axis_inverted position) hkeys
    refine ⟨mapCore axis_inverted position, ?_, ?_⟩
    · simp [apply_axis_direction_map, h1]
    · simp [apply_axis_direction_map, h2, mapCore_invol]

/-- Witness for C1 at a concrete inversion mapping, a concrete full-length
sequence, and a concrete recognized-keys mapping. -/
theorem apply_axis_direction_involutive_witness :
    (apply_axis_direction_seq [("x", true), ("y", false), ("z", true)]
        [3, -4, 5]).bind
      (apply_axis_direction_seq [("x", true), ("y", false), ("z", true)]) =
      some [3, -4, 5] ∧
    ∃ once,
      apply_axis_direction_map [("x", true), ("y", false), ("z", true)]
          [("x", 7), ("y", -2)] = .ok once ∧
        apply_axis_direction_map [("x", true), ("y", false), ("z", true)] once =
          .ok [("x", 7), ("y", -2)] :=
  ⟨(apply_axis_direction_involutive [("x", true), ("y", false), ("z", true)]).1
      [3, -4, 5] (by decide),
   (apply_axis_direction_involutive [("x", true), ("y", false), ("z", true)]).2
      [("x", 7), ("y", -2)] (by decide)⟩

/-- C6: on a stage whose inversion setting has one flag per axis, the
ordered-sequence form of `_apply_axis_direction` fails (the strict zip raises)
exactly when the input length differs from the axis count — partial sequences
are rejected rather than truncated or padded, and full-length ones succeed. -/
theorem seq_translation_length_strict (s : Stage)
    (h : s.axis_inverted.length = s.axis_names.length) (position : List Int) :
    apply_axis_direction_seq s.axis_inverted position = none ↔
      position.length ≠ s.axis_names.length := by
  unfold apply_axis_direction_seq
  rw [h]
  by_cases hc : position.length = s.axis_names.length
  · simp [hc]
  · simp [hc]

/-- Witness for C6 on the three-axis SKR Pico stage: a two-element sequence is
rejected and a three-element sequence is accepted. -/
theorem seq_translation_length_strict_witness :
    apply_axis_direction_seq [("x", false), ("y", false), ("z", false)]
        [1, 2] = none ∧
    apply_axis_direction_seq [("x", false), ("y", false), ("z", false)]
        [1, 2, 3] ≠ none := by
  have h1 := seq_translation_length_strict
    ⟨["x", "y", "z"], [("x", 0), ("y", 0), ("z", 0)],
      [("x", false), ("y", false), ("z", false)], false⟩ (by decide) [1, 2]
  have h2 := seq_translation_length_strict
    ⟨["x", "y", "z"], [("x", 0), ("y", 0), ("z", 0)],
      [("x", false), ("y", false), ("z", false)], false⟩ (by decide) [1, 2, 3]
  exact ⟨h1.mpr (by decide), fun hn => (h2.mp hn) (by decide)⟩

/-- C7 counterexample: on the input mapping `{x: 1, q: 2}` with the default
inversion setting, the mapping form of `_apply_axis_direction` raises a
`KeyError` whose message lists `{x, q}` — including the recognized axis `x` —
so the error does not report only the unrecognized keys, contrary to the claim. -/
theorem map_error_reports_recognized_key :
    apply_axis_direction_map [("x", false), ("y", false), ("z", false)]
        [("x", 1), ("q", 2)] = .error (.keyErrorAll ["x", "q"]) ∧
    ([("x", false), ("y", false), ("z", false)] : InvMap).lookup "x" =
      some false ∧
    "x" ∈ (["x", "q"] : List Axis) :=
  ⟨rfl, rfl, by decide⟩

/-- C7 amended: when any key of the input mapping is not a recognized axis, the
mapping form of `_apply_axis_direction` fails with a `KeyError` whose message
reports all keys of the input mapping (recognized and unrecognized alike); a
mapping whose keys are all recognized axes succeeds. -/
theorem map_error_reports_all_input_keys (axis_inverted : InvMap)
    (position : PosMap) :
    ((∃ p ∈ position, axis_inverted.lookup p.1 = none) →
      apply_axis_direction_map axis_inverted position =
        .error (.keyErrorAll (position.map Prod.fst))) ∧
    ((∀ p ∈ position, (axis_inverted.lookup p.1).isSome = true) →
      apply_axis_direction_map axis_inverted position =
        .ok (mapCore axis_inverted position)) := by
  constructor
  · intro h
    obtain ⟨e, he⟩ := map_branch_fails axis_inverted position h
    simp [apply_axis_direction_map, he]
  · intro h
    simp [apply_axis_direction_map, map_branch_ok axis_inverted position h]

/-- Witness for the amended C7 at a concrete failing mapping and a concrete
succeeding mapping. -/
theorem map_error_reports_all_input_keys_witness :
    apply_axis_direction_map [("x", false)] [("x", 1), ("q", 2)] =
      .error (.keyErrorAll ["x", "q"]) ∧
    apply_axis_direction_map [("x", false)] [("x", 1)] =
      .ok (mapCore [("x", false)] [("x", 1)]) :=
  ⟨(map_error_reports_all_input_keys [("x", false)] [("x", 1), ("q", 2)]).1
      ⟨("q", 2), by decide, rfl⟩,
   (map_error_reports_all_input_keys [("x", false)] [("x", 1)]).2 (by decide)⟩

/-- C8: evaluating `invert_axis_direction` at the object level on the default
setting shows the code mutates the stored mapping in place: after the call the
setting still refers to object `0`, no new object was allocated (`next_id` is
unchanged), and the object observed before the call now carries the flipped
flag — it is the mutated carrier of the new value. The inline comment in the
source ("Not mutating in place so that setting is saved on change") documents
the opposite intent: `direction = self.axis_inverted` aliases the stored dict
instead of copying it. -/
theorem invert_axis_direction_mutates_in_place :
    invert_axis_direction_heap
        ⟨[(0, [("x", false), ("y", false), ("z", false)])], 0, 1⟩ "x" =
      .ok ⟨[(0, [("x", true), ("y", false), ("z", false)])], 0, 1⟩ :=
  rfl

/-- C4: `BaseStage.__init__` raises `RedefinedBaseMovementError` exactly when
the concrete class overrides `move_relative` or `move_absolute` — overriding
only the hardware extension points never triggers it — and the check is the
last step of construction: the constructed state, recorded even on the raising
path, already has `_hardware_position` initialised to the zero vector, `moving`
reset, and the class defaults installed. -/
theorem init_checks_override_last (cls : StageClass) (axis_names : List Axis)
    (axis_inverted0 : InvMap) :
    (base_init cls axis_names axis_inverted0).raised_redefined =
        (cls.overrides_move_relative || cls.overrides_move_absolute) ∧
      (base_init cls axis_names axis_inverted0).st.hardware_position =
        axis_names.map (fun a => (a, (0 : Int))) ∧
      (base_init cls axis_names axis_inverted0).st.moving = false ∧
      (base_init cls axis_names axis_inverted0).st.axis_names = axis_names ∧
      (base_init cls axis_names axis_inverted0).st.axis_inverted =
        axis_inverted0 :=
  ⟨rfl, rfl, rfl, rfl, rfl⟩

/-- C2: on every stage state whose hardware-position keys are recognized axes —
which covers every reachable state — the position read through the public
`position` property equals `HardwarePosition[a] * (-1 if AxisInversion[a] else 1)`
for every axis `a`; and `invert_axis_direction` keeps the hardware position
unchanged and preserves the key invariant, so the same formula (with the
flipped flag) holds immediately after an inversion. -/
theorem position_matches_hardware_and_inversion (s : Stage) (h : keysInv s) :
    (∀ a v b, s.hardware_position.lookup a = some v →
      s.axis_inverted.lookup a = some b →
      ∃ pm, s.position = .ok pm ∧
        pm.lookup a = some (v * (if b then -1 else 1))) ∧
    (∀ axis s2, invert_axis_direction s axis = .ok s2 →
      keysInv s2 ∧ s2.hardware_position = s.hardware_position) := by
  constructor
  · intro a v b hv hb
    refine ⟨mapCore s.axis_inverted s.hardware_position, ?_, ?_⟩
    · simp [Stage.position, apply_axis_direction_map,
        map_branch_ok s.axis_inverted s.hardware_position h]
    · rw [lookup_mapCore, hv, hb]
      cases b
      · simp
      · simp [mul_neg_one]
  · intro axis s2 hs2
    cases hl : s.axis_inverted.lookup axis with
    | none => simp [invert_axis_direction, hl] at hs2
    | some b =>
      simp [invert_axis_direction, hl] at hs2
      subst hs2
      refine ⟨?_, rfl⟩
      intro p hp
      rw [lookup_setKey_isSome]
      exact h p hp

/-- Witness for C2 on the SKR Pico scenario state: the program-frame `x` value
equals the hardware value times the inversion sign, and inverting `x` leaves
the hardware position unchanged while preserving the key invariant. -/
theorem position_matches_hardware_and_inversion_witness :
    (∃ pm,
      Stage.position
          ⟨["x", "y", "z"], [("x", -10), ("y", 5), ("z", 0)],
            [("x", true), ("y", false), ("z", true)], false⟩ = .ok pm ∧
        pm.lookup "x" = some ((-10 : Int) * (if true then -1 else 1))) ∧
    (keysInv
        ⟨["x", "y", "z"], [("x", -10), ("y", 5), ("z", 0)],
          [("x", false), ("y", false), ("z", true)], false⟩ ∧
      (⟨["x", "y", "z"], [("x", -10), ("y", 5), ("z", 0)],
          [("x", false), ("y", false), ("z", true)], false⟩ : Stage).hardware_position =
        (⟨["x", "y", "z"], [("x", -10), ("y", 5), ("z", 0)],
            [("x", true), ("y", false), ("z", true)], false⟩ : Stage).hardware_position) :=
  ⟨(position_matches_hardware_and_inversion
      ⟨["x", "y", "z"], [("x", -10), ("y", 5), ("z", 0)],
        [("x", true), ("y", false), ("z", true)], false⟩
      (by unfold keysInv; decide)).1
      "x" (-10) true rfl rfl,
   (position_matches_hardware_and_inversion
      ⟨["x", "y", "z"], [("x", -10), ("y", 5), ("z", 0)],
        [("x", true), ("y", false), ("z", true)], false⟩
      (by unfold keysInv; decide)).2
      "x"
      ⟨["x", "y", "z"], [("x", -10), ("y", 5), ("z", 0)],
        [("x", false), ("y", false), ("z", true)], false⟩ rfl⟩

/-- C3: every move dispatched through `move_gcode` — hence every
`move_relative` or `move_absolute` call that reaches the driver — has the
`moving` flag set at the moment the G-code script is posted, and the flag is
`False` in the state the call returns, for every device outcome, success or
failure of either HTTP request. -/
theorem move_sets_then_clears_moving (s : Stage) (move_type : MovementType)
    (kwargs : PosMap) (out : DeviceOutcome) :
    ((move_gcode s move_type kwargs out).moving_at_dispatch = true ∧
      (move_gcode s move_type kwargs out).final.moving = false) ∧
    (∀ r, move_relative s kwargs out = .ok r →
      r.moving_at_dispatch = true ∧ r.final.moving = false) ∧
    (∀ r, move_absolute s kwargs out = .ok r →
      r.moving_at_dispatch = true ∧ r.final.moving = false) := by
  have hmain : ∀ (mt : MovementType) (hw : PosMap),
      (move_gcode s mt hw out).moving_at_dispatch = true ∧
        (move_gcode s mt hw out).final.moving = false := by
    intro mt hw
    constructor
    · rfl
    · cases hq : out.query_ok <;> simp [move_gcode, update_position, hq]
  refine ⟨hmain move_type kwargs, ?_, ?_⟩
  · intro r hr
    cases happ : apply_axis_direction_map s.axis_inverted kwargs with
    | error e => simp [move_relative, happ] at hr
    | ok hw =>
      simp [move_relative, happ] at hr
      subst hr
      exact hmain .relative hw
  · intro r hr
    cases happ : apply_axis_direction_map s.axis_inverted kwargs with
    | error e => simp [move_absolute, happ] at hr
    | ok hw =>
      simp [move_absolute, happ] at hr
      subst hr
      exact hmain .absolute hw

/-- Witness for C3 at a concrete stage and a device outcome in which both HTTP
requests fail: the flag was set at dispatch and is clear on return, both for a
bare `move_gcode` call and for a full `move_relative` call. -/
theorem move_sets_then_clears_moving_witness :
    ((move_gcode
        ⟨["x", "y", "z"], [("x", 0), ("y", 0), ("z", 0)],
          [("x", true), ("y", false), ("z", true)], false⟩
        .relative [("x", 3)] ⟨false, false, []⟩).moving_at_dispatch = true ∧
      (move_gcode
        ⟨["x", "y", "z"], [("x", 0), ("y", 0), ("z", 0)],
          [("x", true), ("y", false), ("z", true)], false⟩
        .relative [("x", 3)] ⟨false, false, []⟩).final.moving = false) ∧
    ((move_gcode
        ⟨["x", "y", "z"], [("x", 0), ("y", 0), ("z", 0)],
          [("x", true), ("y", false), ("z", true)], false⟩
        .relative [("x", -3)] ⟨false, false, []⟩).moving_at_dispatch = true ∧
      (move_gcode
        ⟨["x", "y", "z"], [("x", 0), ("y", 0), ("z", 0)],
          [("x", true), ("y", false), ("z", true)], false⟩
        .relative [("x", -3)] ⟨false, false, []⟩).final.moving = false) :=
  ⟨(move_sets_then_clears_moving
      ⟨["x", "y", "z"], [("x", 0), ("y", 0), ("z", 0)],
        [("x", true), ("y", false), ("z", true)], false⟩
      .relative [("x", 3)] ⟨false, false, []⟩).1,
   (move_sets_then_clears_moving
      ⟨["x", "y", "z"], [("x", 0), ("y", 0), ("z", 0)],
        [("x", true), ("y", false), ("z", true)], false⟩
      .relative [("x", 3)] ⟨false, false, []⟩).2.1 _ rfl⟩

/-- C5: on the stage with axes `(x, y, z)`, inversion `{x: true, y: false,
z: true}` and hardware position zero, `move_relative` with the partial mapping
`{x: 10, y: 5}` dispatches the hardware-frame displacement
`{x: -10, y: 5, z: 0}` (unmentioned axes become zero displacement); with the
device reporting that it applied exactly those deltas, the returned state has
hardware position `{x: -10, y: 5, z: 0}` while the `position` property reports
`{x: 10, y: 5, z: 0}` in the program frame. -/
theorem move_relative_partial_scenario :
    (move_relative
        ⟨["x", "y", "z"], [("x", 0), ("y", 0), ("z", 0)],
          [("x", true), ("y", false), ("z", true)], false⟩
        [("x", 10), ("y", 5)]
        ⟨true, true, [-10, 5, 0]⟩).map
      (fun r => (r.dispatched, r.final.hardware_position, r.final.position)) =
      .ok ([("x", -10), ("y", 5), ("z", 0)], [("x", -10), ("y", 5), ("z", 0)],
        .ok [("x", 10), ("y", 5), ("z", 0)]) :=
  rfl

/-- C10: for every move dispatched through `move_gcode` — whether or not the
G-code request succeeds — the `finally` block clears the `moving` flag and then
re-reads the hardware position from the device: whenever the position query
succeeds, the returned state's hardware position is
`dict(zip(axis_names, reported))`, the device-reported toolhead position, not
the commanded displacement; and the flag is clear even when the query fails. -/
theorem move_refreshes_position_from_device (s : Stage)
    (move_type : MovementType) (kwargs : PosMap) (out : DeviceOutcome) :
    (move_gcode s move_type kwargs out).final.moving = false ∧
    (out.query_ok = true →
      (move_gcode s move_type kwargs out).final.hardware_position =
        s.axis_names.zip out.reported) := by
  constructor
  · cases hq : out.query_ok <;> simp [move_gcode, update_position, hq]
  · intro hq
    simp [move_gcode, update_position, hq]

/-- Witness for C10 at a failed G-code request with a successful position
query: the returned hardware position is the device-reported one and the flag
is clear. -/
theorem move_refreshes_position_from_device_witness :
    (move_gcode
        ⟨["x", "y", "z"], [("x", 0), ("y", 0), ("z", 0)],
          [("x", true), ("y", false), ("z", true)], false⟩
        .relative [("x", 3)] ⟨false, true, [7, 8, 9]⟩).final.moving = false ∧
    (move_gcode
        ⟨["x", "y", "z"], [("x", 0), ("y", 0), ("z", 0)],
          [("x", true), ("y", false), ("z", true)], false⟩
        .relative [("x", 3)] ⟨false, true, [7, 8, 9]⟩).final.hardware_position =
      [("x", 7), ("y", 8), ("z", 9)] :=
  ⟨(move_refreshes_position_from_device
      ⟨["x", "y", "z"], [("x", 0), ("y", 0), ("z", 0)],
        [("x", true), ("y", false), ("z", true)], false⟩
      .relative [("x", 3)] ⟨false, true, [7, 8, 9]⟩).1,
   (move_refreshes_position_from_device
      ⟨["x", "y", "z"], [("x", 0), ("y", 0), ("z", 0)],
        [("x", true), ("y", false), ("z", true)], false⟩
      .relative [("x", 3)] ⟨false, true, [7, 8, 9]⟩).2 rfl⟩

/-- C9: on a stage whose hardware-position keys are its axis names and are all
recognized axes, `get_xyz_position` returns the `(x, y, z)` triple of the
program-frame `position` mapping when the axis set contains `x`, `y` and `z`,
and raises a `KeyError` naming one of those axes when the axis set lacks any of
them. -/
theorem get_xyz_position_requires_xyz (s : Stage)
    (hkeys : s.hardware_position.map Prod.fst = s.axis_names)
    (hinv : keysInv s) :
    (("x" ∈ s.axis_names ∧ "y" ∈ s.axis_names ∧ "z" ∈ s.axis_names) →
      ∃ pd px py pz, s.position = .ok pd ∧
        pd.lookup "x" = some px ∧ pd.lookup "y" = some py ∧
        pd.lookup "z" = some pz ∧ get_xyz_position s = .ok (px, py, pz)) ∧
    (¬("x" ∈ s.axis_names ∧ "y" ∈ s.axis_names ∧ "z" ∈ s.axis_names) →
      ∃ a, a ∈ (["x", "y", "z"] : List Axis) ∧
        get_xyz_position s = .error (.keyErrorAxis a)) := by
  have hpos : s.position = .ok (mapCore s.axis_inverted s.hardware_position) := by
    simp [Stage.position, apply_axis_direction_map,
      map_branch_ok s.axis_inverted s.hardware_position hinv]
  have hpk : (mapCore s.axis_inverted s.hardware_position).map Prod.fst =
      s.axis_names := by
    rw [mapCore_keys]
    exact hkeys
  constructor
  · rintro ⟨hx, hy, hz⟩
    obtain ⟨px, hpx⟩ := exists_lookup_of_mem_keys
      (mapCore s.axis_inverted s.hardware_position) "x" (by rw [hpk]; exact hx)
    obtain ⟨py, hpy⟩ := exists_lookup_of_mem_keys
      (mapCore s.axis_inverted s.hardware_position) "y" (by rw [hpk]; exact hy)
    obtain ⟨pz, hpz⟩ := exists_lookup_of_mem_keys
      (mapCore s.axis_inverted s.hardware_position) "z" (by rw [hpk]; exact hz)
    refine ⟨_, px, py, pz, hpos, hpx, hpy, hpz, ?_⟩
    simp [get_xyz_position, hpos, hpx, hpy, hpz]
  · intro hmiss
    by_cases hx : "x" ∈ s.axis_names
    · by_cases hy : "y" ∈ s.axis_names
      · have hz : "z" ∉ s.axis_names := fun hz => hmiss ⟨hx, hy, hz⟩
        obtain ⟨px, hpx⟩ := exists_lookup_of_mem_keys
          (mapCore s.axis_inverted s.hardware_position) "x"
          (by rw [hpk]; exact hx)
        obtain ⟨py, hpy⟩ := exists_lookup_of_mem_keys
          (mapCore s.axis_inverted s.hardware_position) "y"
          (by rw [hpk]; exact hy)
        have hpz : (mapCore s.axis_inverted s.hardware_position).lookup "z" =
            none :=
          lookup_eq_none_of_not_mem_keys _ _ (by rw [hpk]; exact hz)
        exact ⟨"z", by decide,
          by simp [get_xyz_position, hpos, hpx, hpy, hpz]⟩
      · obtain ⟨px, hpx⟩ := exists_lookup_of_mem_keys
          (mapCore s.axis_inverted s.hardware_position) "x"
          (by rw [hpk]; exact hx)
        have hpy : (mapCore s.axis_inverted s.hardware_position).lookup "y" =
            none :=
          lookup_eq_none_of_not_mem_keys _ _ (by rw [hpk]; exact hy)
        exact ⟨"y", by decide, by simp [get_xyz_position, hpos, hpx, hpy]⟩
    · have hpx : (mapCore s.axis_inverted s.hardware_position).lookup "x" =
          none :=
        lookup_eq_none_of_not_mem_keys _ _ (by rw [hpk]; exact hx)
      exact ⟨"x", by decide, by simp [get_xyz_position, hpos, hpx]⟩

/-- Witness for C9: a two-axis stage (no `z`) fails with a `KeyError` naming a
missing axis, and a full three-axis stage returns its program-frame triple. -/
theorem get_xyz_position_requires_xyz_witness :
    (∃ a, a ∈ (["x", "y", "z"] : List Axis) ∧
      get_xyz_position
          ⟨["x", "y"], [("x", 0), ("y", 0)],
            [("x", false), ("y", false)], false⟩ =
        .error (.keyErrorAxis a)) ∧
    (∃ pd px py pz,
      Stage.position
          ⟨["x", "y", "z"], [("x", 1), ("y", 2), ("z", 3)],
            [("x", false), ("y", false), ("z", false)], false⟩ = .ok pd ∧
        pd.lookup "x" = some px ∧ pd.lookup "y" = some py ∧
        pd.lookup "z" = some pz ∧
        get_xyz_position
            ⟨["x", "y", "z"], [("x", 1), ("y", 2), ("z", 3)],
              [("x", false), ("y", false), ("z", false)], false⟩ =
          .ok (px, py, pz)) :=
  ⟨(get_xyz_position_requires_xyz
      ⟨["x", "y"], [("x", 0), ("y", 0)], [("x", false), ("y", false)], false⟩
      (by decide) (by unfold keysInv; decide)).2 (by decide),
   (get_xyz_position_requires_xyz
      ⟨["x", "y", "z"], [("x", 1), ("y", 2), ("z", 3)],
        [("x", false), ("y", false), ("z", false)], false⟩
      (by decide) (by unfold keysInv; decide)).1 (by decide)⟩
